import Mathlib

/-!
Verification development for the AirSense backend (airsense-be).

The data models are shallow embeddings of the Go structs in
`internal/models/command.go`, `internal/models/sensors.go`.
The Command Store, Correlator `resolve` path, Expiry Sweeper and the
Sensor Ingestion Validator are not present in the source tree (only their
data models are), so they are modelled from the specification, as noted
on each definition.  `time.Time` values are modelled as `Nat` ticks and
`float64` values as a sum of a rational (finite doubles) with the
non-finite IEEE values, which is all the validation logic inspects.
-/

namespace AirSense

/-- Model of a Go `float64` as far as validation inspects it: either a
finite value (modelled as a rational) or one of the non-finite IEEE
values NaN, +Inf, -Inf.  No arithmetic is performed on these values by
the code under verification; they are only compared against range
bounds and checked for finiteness. -/
inductive FVal where
  | finite (q : ℚ)
  | nan
  | inf
  | neginf
deriving DecidableEq, Repr

/-- `true` iff the value is a finite number. -/
def FVal.isFinite : FVal → Bool
  | .finite _ => true
  | _ => false

/-- Embedding of `type CommandStatus string` from
`internal/models/command.go`: a plain string type, every string is a
well-typed status value. -/
abbrev CommandStatus := String

/-- `CommandPending CommandStatus = "pending"` from command.go. -/
def CommandPending : CommandStatus := "pending"

/-- `CommandSuccess CommandStatus = "success"` from command.go. -/
def CommandSuccess : CommandStatus := "success"

/-- `CommandError CommandStatus = "error"` from command.go. -/
def CommandError : CommandStatus := "error"

/-- Values of the opaque `map[string]any` command parameter mapping. -/
inductive PVal where
  | str (s : String)
  | num (q : ℚ)
  | bool (b : Bool)
  | null
deriving DecidableEq, Repr

/-- `Params` models `map[string]any` as an association list; the backend
never inspects parameter values. -/
abbrev Params := List (String × PVal)

/-- Embedding of `type Command struct` from `internal/models/command.go`
(fields CommandID, DeviceID, Action, Params, Status, CreatedAt,
UpdatedAt; the struct declares no deadline or expiry field). -/
structure Command where
  commandID : String
  deviceID : String
  action : String
  params : Params
  status : CommandStatus
  createdAt : Nat
  updatedAt : Nat
deriving DecidableEq, Repr

/-- The JSON keys of the `Command` struct, transcribed from its
`json:"..."` tags in command.go, in declaration order. -/
def Command.jsonKeys : List String :=
  ["commandID", "deviceID", "action", "params", "status", "createdAt", "updatedAt"]

/-- The BSON keys of the `Command` struct, transcribed from its
`bson:"..."` tags in command.go, in declaration order. -/
def Command.bsonKeys : List String :=
  ["command_id", "device_id", "action", "params", "status", "created_at", "updated_at"]

/-- Embedding of `type SensorValue struct` from
`internal/models/sensors.go`: a numeric value and a unit label. -/
structure SensorValue where
  value : FVal
  unit : String
deriving DecidableEq, Repr

/-- The Go zero value of `SensorValue` (`{0, ""}`). -/
def SensorValue.zeroVal : SensorValue := { value := FVal.finite 0, unit := "" }

/-- Embedding of `type Sensors struct` from `internal/models/sensors.go`:
a fixed set of five measurement kinds, each a plain (non-pointer)
`SensorValue` field. -/
structure Sensors where
  pm25 : SensorValue
  co2 : SensorValue
  co : SensorValue
  temperature : SensorValue
  humidity : SensorValue
deriving DecidableEq, Repr

/-- Field projection of `Sensors` by measurement-kind name (the JSON tag
names from sensors.go); unknown names give the zero value. -/
def Sensors.get (s : Sensors) (kind : String) : SensorValue :=
  if kind = "pm25" then s.pm25
  else if kind = "co2" then s.co2
  else if kind = "co" then s.co
  else if kind = "temperature" then s.temperature
  else if kind = "humidity" then s.humidity
  else SensorValue.zeroVal

/-- Embedding of `type SensorData struct` from
`internal/models/sensors.go` (fields ID, DeviceID, Timestamp, Sensors;
`time.Time` modelled as `Nat` ticks). -/
structure SensorData where
  id : String
  deviceID : String
  timestamp : Nat
  sensors : Sensors
deriving DecidableEq, Repr

/-- Key lookup in an association list keyed by strings, returning the
value of the first matching entry. -/
def lookupKey {β : Type} : List (String × β) → String → Option β
  | [], _ => none
  | (k, v) :: rest, key => if k = key then some v else lookupKey rest key

/-! ## Command Store

Modelled from the spec: the Command Store implementation (`create`,
`get`, `transition`, `listExpired` and the Expiry Sweeper loop) is not
in the source tree; only the `Command` data model is.  The store is
modelled as an association list keyed by command identifier.  Per the
spec each store entry also tracks the expiry deadline (`deadline = now
+ ttl` at creation) and the result/reason delivered at transition time;
the `Command` struct itself (from command.go) has no such fields, so
they live on the store entry. -/

/-- A Command Store entry: the `Command` record from command.go plus the
store-tracked expiry deadline and transition result/reason.
Modelled from the spec: deadline and result are Store state, absent
from the source `Command` struct. -/
structure CmdEntry where
  cmd : Command
  deadline : Nat
  result : Option String
deriving DecidableEq, Repr

/-- The Command Store state: an association list keyed by command
identifier.  Modelled from the spec. -/
abbrev CmdStore := List (String × CmdEntry)

/-- Replace the entry stored under `key` (all entries with that key),
leaving every other entry untouched. -/
def updEntry (st : CmdStore) (key : String) (f : CmdEntry → CmdEntry) : CmdStore :=
  st.map (fun p => if p.1 = key then (p.1, f p.2) else p)

/-- Outcome of a `transition` call, from the spec contract
`transition(commandID, newStatus, result) -> Command | NotFound |
AlreadyTerminalError`. -/
inductive TransitionResult where
  | ok (c : Command)
  | notFound
  | alreadyTerminal
deriving DecidableEq, Repr

/-- `true` iff the transition succeeded. -/
def TransitionResult.isOk : TransitionResult → Bool
  | .ok _ => true
  | _ => false

/-- Modelled from the spec: `transition(commandID, newStatus, result)`
atomically mutates status (and the updated-at timestamp and stored
result) only if the current status is `pending`; otherwise it returns
`AlreadyTerminalError` and changes nothing; a missing identifier gives
`NotFound`.  The atomicity of the spec means a group of concurrent
calls is modelled by running them in an arbitrary sequential order. -/
def transition (st : CmdStore) (id : String) (newStatus : CommandStatus)
    (res : Option String) (now : Nat) : CmdStore × TransitionResult :=
  match lookupKey st id with
  | none => (st, .notFound)
  | some e =>
    if e.cmd.status = CommandPending then
      let e' : CmdEntry :=
        { cmd := { e.cmd with status := newStatus, updatedAt := now }
          deadline := e.deadline
          result := res }
      (updEntry st id (fun _ => e'), .ok e'.cmd)
    else (st, .alreadyTerminal)

/-- Modelled from the spec: `create(deviceID, action, params, ttl)` sets
status `pending`, deadline = now + ttl, inserts atomically and returns
the command; a duplicate-identifier collision aborts the operation
(store unchanged, no command returned).  Identifier allocation is
external (collision-free time-ordered random identifiers), so the fresh
identifier is a parameter. -/
def create (st : CmdStore) (id deviceID action : String) (params : Params)
    (ttl now : Nat) : CmdStore × Option Command :=
  match lookupKey st id with
  | some _ => (st, none)
  | none =>
    let c : Command :=
      { commandID := id, deviceID := deviceID, action := action,
        params := params, status := CommandPending,
        createdAt := now, updatedAt := now }
    ((id, { cmd := c, deadline := now + ttl, result := none }) :: st, some c)

/-- Modelled from the spec: `listExpired(now)` returns (the identifiers
of) all `pending` commands whose deadline has passed. -/
def listExpired (st : CmdStore) (now : Nat) : List String :=
  (st.filter (fun p =>
    decide (p.2.cmd.status = CommandPending ∧ p.2.deadline < now))).map Prod.fst

/-- One Expiry Sweeper attempt on one identifier:
`transition(id, 'error', reason="timeout")`.  Modelled from the spec. -/
def sweepStep (now : Nat) (st : CmdStore) (id : String) : CmdStore :=
  (transition st id CommandError (some "timeout") now).1

/-- Modelled from the spec: one Expiry Sweeper pass at time `now` calls
`listExpired(now)` and, for each returned command, attempts
`transition(id, 'error', reason="timeout")`. -/
def sweep (st : CmdStore) (now : Nat) : CmdStore :=
  (listExpired st now).foldl (sweepStep now) st

/-- One `transition` call as an operation datum: target identifier, new
status, result payload, call time. -/
structure TOp where
  id : String
  newStatus : CommandStatus
  res : Option String
  now : Nat

/-- Run a sequence of `transition` calls (a linearization of the atomic
calls that land on the store), collecting each call's outcome. -/
def runTransitions : CmdStore → List TOp → CmdStore × List TransitionResult
  | st, [] => (st, [])
  | st, op :: ops =>
    let r := transition st op.id op.newStatus op.res op.now
    let rest := runTransitions r.1 ops
    (rest.1, r.2 :: rest.2)

/-- Number of successful outcomes among the calls that target `id`. -/
def okCount (id : String) : List TOp → List TransitionResult → Nat
  | op :: ops, r :: rs =>
    (if op.id = id ∧ r.isOk = true then 1 else 0) + okCount id ops rs
  | _, _ => 0

/-! ## System operations

Modelled from the spec: the only writers of the Command Store are the
Correlator (`dispatch` creating, `resolve` transitioning with the
device-reported success/error indicator) and the Expiry Sweeper
(transitioning to `error` with reason `timeout`). -/

/-- The status the Correlator's `resolve` passes to `transition`,
derived from the success/error indicator of the device response payload
(`status: success|error`, spec §6).  Modelled from the spec. -/
def resolveStatus (success : Bool) : CommandStatus :=
  if success then CommandSuccess else CommandError

/-- One operation of a system run over the shared Command Store:
command creation, a Response-Matcher-routed `resolve`, or an Expiry
Sweeper pass.  Modelled from the spec. -/
inductive SysOp where
  | createOp (id deviceID action : String) (params : Params) (ttl now : Nat)
  | resolveOp (id : String) (success : Bool) (res : Option String) (now : Nat)
  | sweepOp (now : Nat)

/-- Effect of one system operation on the store.  Modelled from the
spec. -/
def sysStep (st : CmdStore) : SysOp → CmdStore
  | .createOp id dev act ps ttl now => (create st id dev act ps ttl now).1
  | .resolveOp id success res now => (transition st id (resolveStatus success) res now).1
  | .sweepOp now => sweep st now

/-- Run a sequence of system operations (a linearization of the atomic
store accesses).  Modelled from the spec. -/
def sysRun (st : CmdStore) (ops : List SysOp) : CmdStore :=
  ops.foldl sysStep st

/-- A status value is one of the three declared constants. -/
def statusOk (s : CommandStatus) : Prop :=
  s = CommandPending ∨ s = CommandSuccess ∨ s = CommandError

/-- Every entry of the store has one of the three declared status
values. -/
def GoodStore (st : CmdStore) : Prop :=
  ∀ p ∈ st, statusOk p.2.cmd.status

/-! ## Store lemmas -/

theorem lookupKey_updEntry_ne {st : CmdStore} {key id : String}
    (f : CmdEntry → CmdEntry) (h : key ≠ id) :
    lookupKey (updEntry st key f) id = lookupKey st id := by
  simp only [updEntry]
  induction st with
  | nil => rfl
  | cons p rest ih =>
    obtain ⟨k, v⟩ := p
    simp only [List.map_cons]
    by_cases hk : k = key
    · subst hk
      rw [if_pos rfl]
      simp only [lookupKey]
      rw [if_neg h, if_neg h]
      exact ih
    · rw [if_neg hk]
      simp only [lookupKey]
      rw [ih]

theorem lookupKey_updEntry_eq {st : CmdStore} {key : String}
    (f : CmdEntry → CmdEntry) :
    lookupKey (updEntry st key f) key = (lookupKey st key).map f := by
  simp only [updEntry]
  induction st with
  | nil => rfl
  | cons p rest ih =>
    obtain ⟨k, v⟩ := p
    simp only [List.map_cons]
    by_cases hk : k = key
    · subst hk
      rw [if_pos rfl]
      simp [lookupKey]
    · rw [if_neg hk]
      simp only [lookupKey]
      rw [if_neg hk, if_neg hk, ih]

theorem transition_notFound {st : CmdStore} {id : String}
    (ns : CommandStatus) (res : Option String) (now : Nat)
    (h : lookupKey st id = none) :
    transition st id ns res now = (st, .notFound) := by
  simp [transition, h]

theorem transition_stuck {st : CmdStore} {id : String} {e : CmdEntry}
    (ns : CommandStatus) (res : Option String) (now : Nat)
    (h : lookupKey st id = some e) (hterm : e.cmd.status ≠ CommandPending) :
    transition st id ns res now = (st, .alreadyTerminal) := by
  simp [transition, h, hterm]

theorem transition_ok {st : CmdStore} {id : String} {e : CmdEntry}
    (ns : CommandStatus) (res : Option String) (now : Nat)
    (h : lookupKey st id = some e) (hp : e.cmd.status = CommandPending) :
    transition st id ns res now =
      (updEntry st id (fun _ =>
        { cmd := { e.cmd with status := ns, updatedAt := now },
          deadline := e.deadline, result := res }),
       .ok { e.cmd with status := ns, updatedAt := now }) := by
  simp [transition, h, hp]

/-- A transition targeting another identifier never changes what is
stored under `id`. -/
theorem transition_preserves_other {st : CmdStore} {key id : String}
    (ns : CommandStatus) (res : Option String) (now : Nat) (h : key ≠ id) :
    lookupKey (transition st key ns res now).1 id = lookupKey st id := by
  cases hl : lookupKey st key with
  | none => rw [transition_notFound ns res now hl]
  | some e =>
    by_cases hp : e.cmd.status = CommandPending
    · rw [transition_ok ns res now hl hp]
      exact lookupKey_updEntry_ne
        (fun _ => { cmd := { e.cmd with status := ns, updatedAt := now },
                    deadline := e.deadline, result := res }) h
    · rw [transition_stuck ns res now hl hp]

/-- The entry a successful transition writes. -/
def termEntry (e : CmdEntry) (ns : CommandStatus) (res : Option String)
    (now : Nat) : CmdEntry :=
  { cmd := { e.cmd with status := ns, updatedAt := now },
    deadline := e.deadline, result := res }

theorem transition_ok_termEntry {st : CmdStore} {id : String} {e : CmdEntry}
    (ns : CommandStatus) (res : Option String) (now : Nat)
    (h : lookupKey st id = some e) (hp : e.cmd.status = CommandPending) :
    transition st id ns res now =
      (updEntry st id (fun _ => termEntry e ns res now),
       .ok (termEntry e ns res now).cmd) := by
  simp [transition, h, hp, termEntry]

/-- The store holds a pending entry under `id`. -/
def isPendingAt (st : CmdStore) (id : String) : Prop :=
  ∃ e, lookupKey st id = some e ∧ e.cmd.status = CommandPending

/-- Once `id` is not pending (absent or terminal), no run of transition
calls ever succeeds on it again. -/
theorem not_pending_run (id : String) :
    ∀ (ops : List TOp) (st : CmdStore), ¬ isPendingAt st id →
      okCount id ops (runTransitions st ops).2 = 0 := by
  intro ops
  induction ops with
  | nil => intro st _; rfl
  | cons op rest ih =>
    intro st h
    obtain ⟨oid, ns, res, onow⟩ := op
    by_cases hid : oid = id
    · subst hid
      cases hl : lookupKey st oid with
      | none =>
        have ht := @transition_notFound st oid ns res onow hl
        simp [runTransitions, ht, okCount, TransitionResult.isOk, ih st h]
      | some e =>
        have hterm : e.cmd.status ≠ CommandPending := fun hp => h ⟨e, hl, hp⟩
        have ht := transition_stuck ns res onow hl hterm
        simp [runTransitions, ht, okCount, TransitionResult.isOk, ih st h]
    · have hpres := @transition_preserves_other st oid id ns res onow hid
      have h' : ¬ isPendingAt (transition st oid ns res onow).1 id := by
        rintro ⟨e, he, hp⟩
        exact h ⟨e, hpres ▸ he, hp⟩
      simp only [runTransitions, okCount]
      simp [hid, ih _ h']

/-- In any linearization of `transition` calls whose new statuses are
terminal-bound (as the Response Matcher and the Expiry Sweeper both
pass), at most one call on a given identifier ever succeeds. -/
theorem okCount_le_one (id : String) :
    ∀ (ops : List TOp) (st : CmdStore),
      (∀ op ∈ ops, op.newStatus ≠ CommandPending) →
      okCount id ops (runTransitions st ops).2 ≤ 1 := by
  intro ops
  induction ops with
  | nil => intro st _; exact Nat.zero_le 1
  | cons op rest ih =>
    intro st hterm
    obtain ⟨oid, ns, res, onow⟩ := op
    have htermRest : ∀ o ∈ rest, o.newStatus ≠ CommandPending :=
      fun o ho => hterm o (List.mem_cons_of_mem _ ho)
    by_cases hid : oid = id
    · subst hid
      by_cases hpend : isPendingAt st oid
      · obtain ⟨e, hl, hp⟩ := hpend
        have ht := transition_ok_termEntry ns res onow hl hp
        have hns : ns ≠ CommandPending :=
          hterm ⟨oid, ns, res, onow⟩ (List.mem_cons_self _ _)
        have hnotpend :
            ¬ isPendingAt (updEntry st oid (fun _ => termEntry e ns res onow)) oid := by
          rintro ⟨e2, he2, hp2⟩
          rw [lookupKey_updEntry_eq (fun _ => termEntry e ns res onow), hl] at he2
          have : termEntry e ns res onow = e2 := by
            simpa [Option.map] using he2
          rw [← this] at hp2
          exact hns hp2
        have hrest := not_pending_run oid rest _ hnotpend
        simp [runTransitions, ht, okCount, TransitionResult.isOk, hrest]
      · have h0 := not_pending_run oid (⟨oid, ns, res, onow⟩ :: rest) st hpend
        rw [h0]
        exact Nat.zero_le 1
    · have hih := ih ((transition st oid ns res onow).1) htermRest
      simp only [runTransitions, okCount]
      simp [hid, hih]

/-! ## Sweep lemmas -/

theorem mem_of_lookupKey {β : Type} {st : List (String × β)} {id : String}
    {e : β} (h : lookupKey st id = some e) : (id, e) ∈ st := by
  induction st with
  | nil => cases h
  | cons p rest ih =>
    obtain ⟨k, v⟩ := p
    by_cases hk : k = id
    · subst hk
      simp only [lookupKey, if_pos rfl] at h
      cases h
      exact List.mem_cons_self _ _
    · simp only [lookupKey, if_neg hk] at h
      exact List.mem_cons_of_mem _ (ih h)

theorem lookupKey_of_nodup_mem {st : CmdStore} {id : String} {x : CmdEntry}
    (hnd : (st.map Prod.fst).Nodup) (hmem : (id, x) ∈ st) :
    lookupKey st id = some x := by
  induction st with
  | nil => cases hmem
  | cons p rest ih =>
    obtain ⟨k, v⟩ := p
    rw [List.map_cons] at hnd
    have hnd' := List.nodup_cons.mp hnd
    rcases List.mem_cons.mp hmem with h | h
    · cases h
      simp [lookupKey]
    · have hk : k ≠ id := by
        intro hh
        subst hh
        exact hnd'.1 (List.mem_map.mpr ⟨(k, x), h, rfl⟩)
      simp only [lookupKey, if_neg hk]
      exact ih hnd'.2 h

theorem mem_listExpired {st : CmdStore} {now : Nat} {id : String} :
    id ∈ listExpired st now ↔
      ∃ e, (id, e) ∈ st ∧ e.cmd.status = CommandPending ∧ e.deadline < now := by
  unfold listExpired
  constructor
  · intro h
    obtain ⟨p, hp, hfst⟩ := List.mem_map.mp h
    obtain ⟨k, e⟩ := p
    obtain ⟨hmem, hpred⟩ := List.mem_filter.mp hp
    rw [decide_eq_true_eq] at hpred
    cases hfst
    exact ⟨e, hmem, hpred.1, hpred.2⟩
  · rintro ⟨e, hmem, h1, h2⟩
    exact List.mem_map.mpr ⟨(id, e),
      List.mem_filter.mpr ⟨hmem, by rw [decide_eq_true_eq]; exact ⟨h1, h2⟩⟩, rfl⟩

theorem listExpired_nodup {st : CmdStore} (now : Nat)
    (hnd : (st.map Prod.fst).Nodup) : (listExpired st now).Nodup :=
  List.Nodup.sublist (List.Sublist.map Prod.fst (List.filter_sublist st)) hnd

theorem foldl_sweepStep_notmem (now : Nat) (id : String) :
    ∀ (l : List String) (st : CmdStore), id ∉ l →
      lookupKey (l.foldl (sweepStep now) st) id = lookupKey st id := by
  intro l
  induction l with
  | nil => intro st _; rfl
  | cons j rest ih =>
    intro st h
    have hj : j ≠ id := fun hh => h (hh ▸ List.mem_cons_self _ _)
    have hr : id ∉ rest := fun hh => h (List.mem_cons_of_mem _ hh)
    simp only [List.foldl_cons]
    rw [ih _ hr]
    exact @transition_preserves_other st j id CommandError (some "timeout") now hj

/-- A sweep pass at a time at or before the deadline leaves a pending
command untouched. -/
theorem sweep_not_before {st : CmdStore} {now : Nat} {id : String} {e : CmdEntry}
    (hnd : (st.map Prod.fst).Nodup) (hl : lookupKey st id = some e)
    (hd : now ≤ e.deadline) :
    lookupKey (sweep st now) id = some e := by
  have hnot : id ∉ listExpired st now := by
    rw [mem_listExpired]
    rintro ⟨e2, hmem, _, hd2⟩
    have h2 := lookupKey_of_nodup_mem hnd hmem
    rw [hl] at h2
    obtain rfl := Option.some.inj h2
    exact absurd hd2 (not_lt.mpr hd)
  unfold sweep
  rw [foldl_sweepStep_notmem now id _ st hnot, hl]

/-- A sweep pass strictly after the deadline transitions a pending
command to `error` with reason `timeout`. -/
theorem sweep_expires {st : CmdStore} {now : Nat} {id : String} {e : CmdEntry}
    (hnd : (st.map Prod.fst).Nodup) (hl : lookupKey st id = some e)
    (hp : e.cmd.status = CommandPending) (hd : e.deadline < now) :
    lookupKey (sweep st now) id =
      some (termEntry e CommandError (some "timeout") now) := by
  have hidmem : id ∈ listExpired st now :=
    mem_listExpired.mpr ⟨e, mem_of_lookupKey hl, hp, hd⟩
  have hndl : (listExpired st now).Nodup := listExpired_nodup now hnd
  obtain ⟨l1, l2, hsplit⟩ := List.append_of_mem hidmem
  have hnotin : id ∉ l1 ∧ id ∉ l2 := by
    rw [hsplit, List.nodup_middle, List.nodup_cons] at hndl
    exact ⟨fun hh => hndl.1 (List.mem_append.mpr (Or.inl hh)),
           fun hh => hndl.1 (List.mem_append.mpr (Or.inr hh))⟩
  have hpre : lookupKey (l1.foldl (sweepStep now) st) id = some e :=
    (foldl_sweepStep_notmem now id l1 st hnotin.1).trans hl
  unfold sweep
  rw [hsplit, List.foldl_append, List.foldl_cons]
  have hstep : sweepStep now (l1.foldl (sweepStep now) st) id =
      updEntry (l1.foldl (sweepStep now) st) id
        (fun _ => termEntry e CommandError (some "timeout") now) := by
    show (transition (l1.foldl (sweepStep now) st) id CommandError
      (some "timeout") now).1 = _
    rw [transition_ok_termEntry CommandError (some "timeout") now hpre hp]
  rw [hstep, foldl_sweepStep_notmem now id l2 _ hnotin.2,
      lookupKey_updEntry_eq (fun _ => termEntry e CommandError (some "timeout") now),
      hpre]
  rfl

/-! ## System-run lemmas -/

theorem create_collision {st : CmdStore} {id : String}
    (dev act : String) (ps : Params) (ttl now : Nat) (x : CmdEntry)
    (h : lookupKey st id = some x) :
    create st id dev act ps ttl now = (st, none) := by
  simp [create, h]

theorem create_fresh {st : CmdStore} {id : String}
    (dev act : String) (ps : Params) (ttl now : Nat)
    (h : lookupKey st id = none) :
    create st id dev act ps ttl now =
      ((id, { cmd := { commandID := id, deviceID := dev, action := act,
                       params := ps, status := CommandPending,
                       createdAt := now, updatedAt := now },
              deadline := now + ttl, result := none }) :: st,
       some { commandID := id, deviceID := dev, action := act, params := ps,
              status := CommandPending, createdAt := now, updatedAt := now }) := by
  simp [create, h]

theorem sweep_foldl_terminal (now : Nat) (id : String) {e : CmdEntry}
    (ht : e.cmd.status ≠ CommandPending) :
    ∀ (l : List String) (st : CmdStore), lookupKey st id = some e →
      lookupKey (l.foldl (sweepStep now) st) id = some e := by
  intro l
  induction l with
  | nil => intro st h; exact h
  | cons j rest ih =>
    intro st h
    simp only [List.foldl_cons]
    apply ih
    by_cases hj : j = id
    · subst hj
      show lookupKey (transition st j CommandError (some "timeout") now).1 j = some e
      rw [transition_stuck CommandError (some "timeout") now h ht]
      exact h
    · show lookupKey (transition st j CommandError (some "timeout") now).1 id = some e
      rw [@transition_preserves_other st j id CommandError (some "timeout") now hj]
      exact h

/-- Once a command is terminal, no system operation changes its stored
record. -/
theorem sysStep_terminal_absorb {st : CmdStore} {id : String} {e : CmdEntry}
    (op : SysOp) (hl : lookupKey st id = some e)
    (ht : e.cmd.status ≠ CommandPending) :
    lookupKey (sysStep st op) id = some e := by
  cases op with
  | createOp j dev act ps ttl now =>
    show lookupKey (create st j dev act ps ttl now).1 id = some e
    cases hj : lookupKey st j with
    | some x => rw [create_collision dev act ps ttl now x hj]; exact hl
    | none =>
      have hne : j ≠ id := by
        intro hh
        subst hh
        rw [hj] at hl
        cases hl
      rw [create_fresh dev act ps ttl now hj]
      simp only [lookupKey, if_neg hne]
      exact hl
  | resolveOp j success res now =>
    show lookupKey (transition st j (resolveStatus success) res now).1 id = some e
    by_cases hj : j = id
    · subst hj
      rw [transition_stuck (resolveStatus success) res now hl ht]
      exact hl
    · rw [@transition_preserves_other st j id (resolveStatus success) res now hj]
      exact hl
  | sweepOp now => exact sweep_foldl_terminal now id ht _ st hl

theorem sysRun_terminal_absorb {id : String} {e : CmdEntry}
    (ht : e.cmd.status ≠ CommandPending) :
    ∀ (ops : List SysOp) (st : CmdStore), lookupKey st id = some e →
      lookupKey (sysRun st ops) id = some e := by
  intro ops
  induction ops with
  | nil => intro st h; exact h
  | cons op rest ih =>
    intro st h
    exact ih _ (sysStep_terminal_absorb op h ht)

theorem goodStore_updEntry {st : CmdStore} {key : String} {e' : CmdEntry}
    (hg : GoodStore st) (he : statusOk e'.cmd.status) :
    GoodStore (updEntry st key (fun _ => e')) := by
  intro p hp
  obtain ⟨q, hq, rfl⟩ := List.mem_map.mp hp
  by_cases hk : q.1 = key
  · simp only [if_pos hk]
    exact he
  · simp only [if_neg hk]
    exact hg q hq

theorem goodStore_transition {st : CmdStore} (id : String) {ns : CommandStatus}
    (res : Option String) (now : Nat) (hg : GoodStore st) (hns : statusOk ns) :
    GoodStore (transition st id ns res now).1 := by
  cases hl : lookupKey st id with
  | none => rw [transition_notFound ns res now hl]; exact hg
  | some e =>
    by_cases hp : e.cmd.status = CommandPending
    · rw [transition_ok_termEntry ns res now hl hp]
      exact goodStore_updEntry hg hns
    · rw [transition_stuck ns res now hl hp]; exact hg

theorem goodStore_sweep_foldl (now : Nat) :
    ∀ (l : List String) (st : CmdStore), GoodStore st →
      GoodStore (l.foldl (sweepStep now) st) := by
  intro l
  induction l with
  | nil => intro st h; exact h
  | cons j rest ih =>
    intro st h
    simp only [List.foldl_cons]
    exact ih _ (goodStore_transition j (some "timeout") now h (Or.inr (Or.inr rfl)))

/-- Every system operation keeps every stored status among the three
declared values. -/
theorem goodStore_sysStep {st : CmdStore} (op : SysOp) (hg : GoodStore st) :
    GoodStore (sysStep st op) := by
  cases op with
  | createOp j dev act ps ttl now =>
    show GoodStore (create st j dev act ps ttl now).1
    cases hj : lookupKey st j with
    | some x => rw [create_collision dev act ps ttl now x hj]; exact hg
    | none =>
      rw [create_fresh dev act ps ttl now hj]
      intro p hp
      rcases List.mem_cons.mp hp with rfl | hp'
      · exact Or.inl rfl
      · exact hg p hp'
  | resolveOp j success res now =>
    show GoodStore (transition st j (resolveStatus success) res now).1
    apply goodStore_transition j res now hg
    cases success
    · exact Or.inr (Or.inr rfl)
    · exact Or.inr (Or.inl rfl)
  | sweepOp now => exact goodStore_sweep_foldl now _ st hg

theorem goodStore_sysRun :
    ∀ (ops : List SysOp) (st : CmdStore), GoodStore st →
      GoodStore (sysRun st ops) := by
  intro ops
  induction ops with
  | nil => intro st h; exact h
  | cons op rest ih =>
    intro st h
    exact ih _ (goodStore_sysStep op h)

/-! ## JSON decoding of telemetry

Embedding of Go `encoding/json` unmarshalling into the `SensorData`
struct of sensors.go, as far as its struct tags determine it: an object
key is matched against a field's `json:"..."` tag, preferring an exact
match and falling back to a case-insensitive match; a missing key
leaves the field at its Go zero value. -/

/-- A JSON value, restricted to the shapes telemetry payloads use. -/
inductive JVal where
  | str (s : String)
  | num (v : FVal)
  | obj (fields : List (String × JVal))

/-- Case-insensitive string comparison (Go `strings.EqualFold`
restricted to the simple folding the key matching needs). -/
def lowerEq (a b : String) : Bool :=
  a.data.map Char.toLower == b.data.map Char.toLower

/-- Go `encoding/json` key matching against a struct tag: exact match
first, then case-insensitive. -/
def jsonLookup (fs : List (String × JVal)) (tag : String) : Option JVal :=
  match lookupKey fs tag with
  | some v => some v
  | none => (fs.find? (fun p => lowerEq p.1 tag)).map Prod.snd

/-- Decode a string field; a missing or non-string value leaves the Go
zero value `""`. -/
def jStr : Option JVal → String
  | some (.str s) => s
  | _ => ""

/-- Decode a numeric field; a missing or non-numeric value leaves the
Go zero value `0`. -/
def jNum : Option JVal → FVal
  | some (.num v) => v
  | _ => FVal.finite 0

/-- View a field as an object; a missing or non-object value behaves as
the empty object (all nested fields at their zero values). -/
def jObj : Option JVal → List (String × JVal)
  | some (.obj fs) => fs
  | _ => []

/-- Unmarshal a `SensorValue` (tags `value`, `unit` from sensors.go). -/
def decodeSensorValue (fs : List (String × JVal)) : SensorValue :=
  { value := jNum (jsonLookup fs "value"), unit := jStr (jsonLookup fs "unit") }

/-- Unmarshal a `Sensors` value (tags `pm25`, `co2`, `co`,
`temperature`, `humidity` from sensors.go): a kind absent from the
payload yields the zero `SensorValue`, and keys outside the five tags
are ignored. -/
def decodeSensors (fs : List (String × JVal)) : Sensors :=
  { pm25 := decodeSensorValue (jObj (jsonLookup fs "pm25"))
    co2 := decodeSensorValue (jObj (jsonLookup fs "co2"))
    co := decodeSensorValue (jObj (jsonLookup fs "co"))
    temperature := decodeSensorValue (jObj (jsonLookup fs "temperature"))
    humidity := decodeSensorValue (jObj (jsonLookup fs "humidity")) }

/-- Unmarshal a `SensorData` value using the json tags of sensors.go:
`id`, `device_id`, `timestamp`, `sensors`.  `time.Time` parsing is
abstracted as `parseTs`; an absent or unparseable timestamp leaves the
zero time. -/
def decodeSensorData (parseTs : String → Option Nat)
    (fs : List (String × JVal)) : SensorData :=
  { id := jStr (jsonLookup fs "id")
    deviceID := jStr (jsonLookup fs "device_id")
    timestamp := (parseTs (jStr (jsonLookup fs "timestamp"))).getD 0
    sensors := decodeSensors (jObj (jsonLookup fs "sensors")) }

/-- The telemetry example published in the repository README
(`mosquitto_pub` on `devices/test-device/data`), whose device
identifier is keyed `deviceID`. -/
def readmeTelemetry : List (String × JVal) :=
  [("timestamp", JVal.str "2024-01-15T10:30:00Z"),
   ("deviceID", JVal.str "test-device"),
   ("sensors", JVal.obj
     [("pm25", JVal.obj [("value", JVal.num (FVal.finite (51/2))),
                         ("unit", JVal.str "μg/m³")]),
      ("co2", JVal.obj [("value", JVal.num (FVal.finite 450)),
                        ("unit", JVal.str "ppm")]),
      ("co", JVal.obj [("value", JVal.num (FVal.finite (1/2))),
                       ("unit", JVal.str "ppm")]),
      ("temperature", JVal.obj [("value", JVal.num (FVal.finite (45/2))),
                                ("unit", JVal.str "°C")]),
      ("humidity", JVal.obj [("value", JVal.num (FVal.finite 55)),
                             ("unit", JVal.str "%")])])]

/-! ## Sensor Ingestion Validator

Modelled from the spec: the Validator and the ingestion pipeline are
not in the source tree; only the `SensorData`/`Sensors`/`SensorValue`
data models are.  Contract (spec §4.1):
`validate(rawPayload) -> (SensorReading, ValidationError?)` on a parsed
message associating a device identifier with a timestamp and a mapping
of measurement-kind to (value, unit). -/

/-- One declared measurement of a raw telemetry message. -/
structure RawMeasurement where
  value : FVal
  unit : String
deriving DecidableEq, Repr

/-- The parsed raw telemetry message the Validator consumes.  A missing
device identifier decodes to `""`; an absent timestamp is `none`.
Modelled from the spec. -/
structure RawPayload where
  deviceID : String
  timestamp : Option String
  sensors : List (String × RawMeasurement)
deriving DecidableEq, Repr

/-- The Validator's error taxonomy (spec §7).  Modelled from the
spec. -/
inductive ValidationError where
  | missingDeviceID
  | badTimestamp
  | nonFiniteValue (kind : String)
  | outOfRange (kind : String)
deriving DecidableEq, Repr

/-- The fixed set of known measurement kinds, from the five fields of
the `Sensors` struct in sensors.go. -/
def knownKinds : List String := ["pm25", "co2", "co", "temperature", "humidity"]

/-- Modelled from the spec: per-kind sanity check.  A non-finite value
is rejected; a finite value is rejected when outside the sanity range
configured for its kind (if any). -/
def sanityCheck (cfg : String → Option (ℚ × ℚ)) (kind : String)
    (v : FVal) : Option ValidationError :=
  match v with
  | .finite q =>
    match cfg kind with
    | some (lo, hi) => if q < lo ∨ hi < q then some (.outOfRange kind) else none
    | none => none
  | _ => some (.nonFiniteValue kind)

/-- First sanity-check failure among the declared measurements. -/
def firstError (cfg : String → Option (ℚ × ℚ)) :
    List (String × RawMeasurement) → Option ValidationError
  | [] => none
  | (k, m) :: rest =>
    match sanityCheck cfg k m.value with
    | some e => some e
    | none => firstError cfg rest

/-- The declared measurements whose kind is one of the five known
kinds. -/
def knownPart (l : List (String × RawMeasurement)) :
    List (String × RawMeasurement) :=
  l.filter (fun p => knownKinds.contains p.1)

/-- The kinds dropped (with a warning) because they are unknown. -/
def unknownNames (l : List (String × RawMeasurement)) : List String :=
  (l.filter (fun p => !knownKinds.contains p.1)).map Prod.fst

/-- The normalized measurement stored for `kind`: the declared (value,
unit) pair verbatim, or the zero value when the kind was not
declared. -/
def getMeas (l : List (String × RawMeasurement)) (kind : String) : SensorValue :=
  match lookupKey l kind with
  | some m => { value := m.value, unit := m.unit }
  | none => SensorValue.zeroVal

/-- Assemble the `Sensors` record of the normalized reading from the
declared known measurements. -/
def buildSensors (l : List (String × RawMeasurement)) : Sensors :=
  { pm25 := getMeas l "pm25", co2 := getMeas l "co2", co := getMeas l "co",
    temperature := getMeas l "temperature", humidity := getMeas l "humidity" }

/-- The sanity-range configuration of the spec's example: humidity must
lie in [0,100].  Modelled from the spec. -/
def defaultSanity : String → Option (ℚ × ℚ)
  | "humidity" => some (0, 100)
  | _ => none

/-- Modelled from the spec: `validate(rawPayload)` rejects a
missing/empty device identifier, an absent or unparseable timestamp,
and any declared known measurement whose value is non-finite or
outside its configured sanity range; unknown kinds are dropped with a
warning, not fatal.  On success it produces the normalized reading
(values and unit strings verbatim, no conversion) and the list of
dropped kinds.  `parseTs` abstracts timestamp parsing, `cfg` the
per-kind sanity ranges, `newID` the allocated reading identifier. -/
def validate (parseTs : String → Option Nat) (cfg : String → Option (ℚ × ℚ))
    (newID : String) (raw : RawPayload) :
    Except ValidationError (SensorData × List String) :=
  if raw.deviceID = "" then .error .missingDeviceID
  else
    match raw.timestamp with
    | none => .error .badTimestamp
    | some ts =>
      match parseTs ts with
      | none => .error .badTimestamp
      | some t =>
        match firstError cfg (knownPart raw.sensors) with
        | some e => .error e
        | none =>
          .ok ({ id := newID, deviceID := raw.deviceID, timestamp := t,
                 sensors := buildSensors (knownPart raw.sensors) },
               unknownNames raw.sensors)

/-- Modelled from the spec: ingestion validates the raw message and
appends the normalized reading to the time-series store on success; on
a `ValidationError` nothing is persisted. -/
def ingestTelemetry (parseTs : String → Option Nat)
    (cfg : String → Option (ℚ × ℚ)) (newID : String)
    (db : List SensorData) (raw : RawPayload) :
    List SensorData × Option ValidationError × List String :=
  match validate parseTs cfg newID raw with
  | .error e => (db, some e, [])
  | .ok (r, ws) => (db ++ [r], none, ws)

/-! ## Validator lemmas -/

theorem sanity_none_of_firstError_none {cfg : String → Option (ℚ × ℚ)} :
    ∀ {l : List (String × RawMeasurement)}, firstError cfg l = none →
      ∀ k m, (k, m) ∈ l → sanityCheck cfg k m.value = none := by
  intro l
  induction l with
  | nil => intro _ k m hm; cases hm
  | cons p rest ih =>
    obtain ⟨k', m'⟩ := p
    intro h k m hm
    cases hsc : sanityCheck cfg k' m'.value with
    | some e =>
      unfold firstError at h
      rw [hsc] at h
      cases h
    | none =>
      unfold firstError at h
      rw [hsc] at h
      rcases List.mem_cons.mp hm with heq | hm'
      · cases heq; exact hsc
      · exact ih h _ _ hm'

theorem mem_knownPart {l : List (String × RawMeasurement)} {k : String}
    {m : RawMeasurement} (hm : (k, m) ∈ l) (hk : k ∈ knownKinds) :
    (k, m) ∈ knownPart l :=
  List.mem_filter.mpr ⟨hm, List.elem_eq_true_of_mem hk⟩

theorem lookupKey_knownPart (l : List (String × RawMeasurement)) {k : String}
    (hk : k ∈ knownKinds) : lookupKey (knownPart l) k = lookupKey l k := by
  induction l with
  | nil => rfl
  | cons p rest ih =>
    obtain ⟨k', m'⟩ := p
    unfold knownPart at *
    rw [List.filter_cons]
    by_cases hkk : (knownKinds.contains k') = true
    · rw [if_pos (by simpa using hkk)]
      simp only [lookupKey]
      by_cases h' : k' = k
      · rw [if_pos h', if_pos h']
      · rw [if_neg h', if_neg h', ih]
    · rw [if_neg (by simpa using hkk)]
      have h' : k' ≠ k := by
        intro hh
        subst hh
        exact hkk (List.elem_eq_true_of_mem hk)
      rw [ih]
      simp only [lookupKey, if_neg h']

theorem knownPart_knownPart (l : List (String × RawMeasurement)) :
    knownPart (knownPart l) = knownPart l := by
  induction l with
  | nil => rfl
  | cons p rest ih =>
    unfold knownPart at *
    rw [List.filter_cons]
    by_cases h : (knownKinds.contains p.1) = true
    · rw [if_pos (by simpa using h), List.filter_cons,
        if_pos (by simpa using h), ih]
    · rw [if_neg (by simpa using h), ih]

theorem unknownNames_knownPart (l : List (String × RawMeasurement)) :
    unknownNames (knownPart l) = [] := by
  induction l with
  | nil => rfl
  | cons p rest ih =>
    unfold unknownNames knownPart at *
    rw [List.filter_cons]
    by_cases h : (knownKinds.contains p.1) = true
    · rw [if_pos (by simpa using h), List.filter_cons, if_neg (by rw [h]; decide)]
      exact ih
    · rw [if_neg (by simpa using h)]
      exact ih

theorem firstError_isSome_of_mem {cfg : String → Option (ℚ × ℚ)}
    {l : List (String × RawMeasurement)} {k : String} {m : RawMeasurement}
    (hmem : (k, m) ∈ l) (he : (sanityCheck cfg k m.value).isSome = true) :
    (firstError cfg l).isSome = true := by
  cases hfe : firstError cfg l with
  | some e => rfl
  | none =>
    rw [sanity_none_of_firstError_none hfe k m hmem] at he
    cases he

/-- Any known declared measurement failing its sanity check forces
`validate` to report some `ValidationError`. -/
theorem validate_error_of_bad_meas {parseTs : String → Option Nat}
    {cfg : String → Option (ℚ × ℚ)} {newID : String} {raw : RawPayload}
    {k : String} {m : RawMeasurement}
    (hmem : (k, m) ∈ raw.sensors) (hknown : k ∈ knownKinds)
    (hbad : (sanityCheck cfg k m.value).isSome = true) :
    ∃ e, validate parseTs cfg newID raw = .error e := by
  unfold validate
  split
  · exact ⟨_, rfl⟩
  split
  · exact ⟨_, rfl⟩
  split
  · exact ⟨_, rfl⟩
  split
  · exact ⟨_, rfl⟩
  next hfe =>
    have hs := firstError_isSome_of_mem (mem_knownPart hmem hknown) hbad
    rw [hfe] at hs
    cases hs

/-- Shape of a successful validation: the reading's fields and the
warning list. -/
theorem validate_ok_shape {parseTs : String → Option Nat}
    {cfg : String → Option (ℚ × ℚ)} {newID : String} {raw : RawPayload}
    {r : SensorData} {ws : List String}
    (h : validate parseTs cfg newID raw = .ok (r, ws)) :
    r.id = newID ∧ r.deviceID = raw.deviceID ∧
      r.sensors = buildSensors (knownPart raw.sensors) ∧
      ws = unknownNames raw.sensors := by
  unfold validate at h
  split at h
  · cases h
  split at h
  · cases h
  split at h
  · cases h
  split at h
  · cases h
  cases h
  exact ⟨rfl, rfl, rfl, rfl⟩

/-- Dropping the unknown kinds from a payload changes neither
acceptance nor the produced reading, only the warning list. -/
theorem validate_drop_unknown (parseTs : String → Option Nat)
    (cfg : String → Option (ℚ × ℚ)) (newID : String) (raw : RawPayload) :
    validate parseTs cfg newID { raw with sensors := knownPart raw.sensors } =
      Except.map (fun p => (p.1, ([] : List String)))
        (validate parseTs cfg newID raw) := by
  obtain ⟨dev, tso, sens⟩ := raw
  unfold validate
  dsimp only
  by_cases hdev : dev = ""
  · rw [if_pos hdev, if_pos hdev]
    rfl
  · rw [if_neg hdev, if_neg hdev]
    cases tso with
    | none => rfl
    | some ts =>
      dsimp only
      cases parseTs ts with
      | none => rfl
      | some t =>
        dsimp only
        rw [knownPart_knownPart, unknownNames_knownPart]
        cases firstError cfg (knownPart sens) with
        | some e => rfl
        | none => rfl

theorem sanityCheck_nonfinite (cfg : String → Option (ℚ × ℚ)) (k : String)
    {v : FVal} (h : v.isFinite = false) :
    sanityCheck cfg k v = some (ValidationError.nonFiniteValue k) := by
  cases v with
  | finite q => cases h
  | nan => rfl
  | inf => rfl
  | neginf => rfl

theorem get_buildSensors (l : List (String × RawMeasurement)) {kind : String}
    (hk : kind ∈ knownKinds) :
    Sensors.get (buildSensors l) kind = getMeas l kind := by
  have h5 : kind = "pm25" ∨ kind = "co2" ∨ kind = "co" ∨
      kind = "temperature" ∨ kind = "humidity" := by
    simpa [knownKinds] using hk
  rcases h5 with rfl | rfl | rfl | rfl | rfl <;> rfl

/-! ## Decode lemmas -/

theorem jsonLookup_cons {k : String} (v : JVal) (fs : List (String × JVal))
    (tag : String) (h1 : k ≠ tag) (h2 : lowerEq k tag = false) :
    jsonLookup ((k, v) :: fs) tag = jsonLookup fs tag := by
  unfold jsonLookup
  simp only [lookupKey, if_neg h1]
  cases hl : lookupKey fs tag with
  | some w => rfl
  | none => simp only [List.find?, h2]

/-! ## Claim theorems -/

/-- C1: for every command identifier, at most one `transition` call on
that identifier ever succeeds in any linearization of the atomic calls
(all callers — `resolve` routed from device responses and the Expiry
Sweeper — pass terminal-bound statuses), and any call that finds the
command no longer pending returns `AlreadyTerminalError` and leaves
the store unchanged; hence duplicate responses produce exactly one
observable status change, regardless of the order the calls land in. -/
theorem transition_at_most_one_success :
    (∀ (st : CmdStore) (ops : List TOp) (id : String),
        (∀ op ∈ ops, op.newStatus ≠ CommandPending) →
        okCount id ops (runTransitions st ops).2 ≤ 1) ∧
    (∀ (st : CmdStore) (id : String) (e : CmdEntry) (ns : CommandStatus)
        (res : Option String) (now : Nat),
        lookupKey st id = some e → e.cmd.status ≠ CommandPending →
        transition st id ns res now = (st, TransitionResult.alreadyTerminal)) :=
  ⟨fun st ops id h => okCount_le_one id ops st h,
   fun _ _ _ ns res now hl ht => transition_stuck ns res now hl ht⟩

def w1Cmd : Command :=
  { commandID := "c1", deviceID := "d1", action := "calibrate",
    params := [("targetSensor", PVal.str "co2")], status := CommandPending,
    createdAt := 0, updatedAt := 0 }

def w1Store : CmdStore := [("c1", { cmd := w1Cmd, deadline := 10, result := none })]

def w1Ops : List TOp :=
  [{ id := "c1", newStatus := CommandSuccess, res := some "done", now := 3 },
   { id := "c1", newStatus := CommandError, res := some "timeout", now := 11 }]

def w1Entry : CmdEntry :=
  { cmd := { w1Cmd with status := CommandSuccess, updatedAt := 3 },
    deadline := 10, result := some "done" }

def w1TermStore : CmdStore := [("c1", w1Entry)]

theorem transition_at_most_one_success_witness :
    okCount "c1" w1Ops (runTransitions w1Store w1Ops).2 ≤ 1 ∧
    transition w1TermStore "c1" CommandError (some "timeout") 11 =
      (w1TermStore, TransitionResult.alreadyTerminal) :=
  ⟨transition_at_most_one_success.1 w1Store w1Ops "c1" (by decide),
   transition_at_most_one_success.2 w1TermStore "c1" w1Entry CommandError
     (some "timeout") 11 rfl (by decide)⟩

/-- C2 counterexample: the `Command` struct declared in
`internal/models/command.go` carries exactly seven attributes
(commandID, deviceID, action, params, status, createdAt, updatedAt);
no JSON or BSON key of the struct is a deadline or expiry field, so a
Command record does not carry an internal deadline for expiry as one of
its attributes. -/
theorem command_struct_lacks_deadline_field :
    Command.jsonKeys.length = 7 ∧ Command.bsonKeys.length = 7 ∧
    "deadline" ∉ Command.jsonKeys ∧ "deadline" ∉ Command.bsonKeys ∧
    "expiresAt" ∉ Command.jsonKeys ∧ "expires_at" ∉ Command.bsonKeys := by
  decide

/-- C2 amended: the `Command` record itself (command.go) has no deadline
attribute; the expiry deadline lives on the Command Store's entry, and
the store's `create` sets status `pending` and deadline = now + ttl at
creation time. -/
theorem deadline_tracked_by_store_not_command
    (st : CmdStore) (id dev act : String) (ps : Params) (ttl now : Nat)
    (h : lookupKey st id = none) :
    (∃ c, (create st id dev act ps ttl now).2 = some c ∧
       c.status = CommandPending ∧ c.createdAt = now ∧
       lookupKey (create st id dev act ps ttl now).1 id =
         some { cmd := c, deadline := now + ttl, result := none }) ∧
    "deadline" ∉ Command.jsonKeys := by
  constructor
  · exact ⟨{ commandID := id, deviceID := dev, action := act, params := ps,
             status := CommandPending, createdAt := now, updatedAt := now },
      by rw [create_fresh dev act ps ttl now h], rfl, rfl,
      by rw [create_fresh dev act ps ttl now h]; simp [lookupKey]⟩
  · decide

theorem deadline_tracked_by_store_not_command_witness :
    (∃ c, (create [] "c7" "d1" "calibrate" [] 30 5).2 = some c ∧
       c.status = CommandPending ∧ c.createdAt = 5 ∧
       lookupKey (create [] "c7" "d1" "calibrate" [] 30 5).1 "c7" =
         some { cmd := c, deadline := 5 + 30, result := none }) ∧
    "deadline" ∉ Command.jsonKeys :=
  deadline_tracked_by_store_not_command [] "c7" "d1" "calibrate" [] 30 5 rfl

/-- C3: the README documents the telemetry payload with the device
identifier keyed `deviceID`, but the `SensorData` struct tag in
sensors.go is `json:"device_id"`; decoding the documented payload
therefore leaves the reading's device identifier empty, and only a
`device_id` key populates it. -/
theorem telemetry_deviceID_key_mismatch :
    (decodeSensorData (fun _ => none) readmeTelemetry).deviceID = "" ∧
    lookupKey readmeTelemetry "deviceID" = some (JVal.str "test-device") ∧
    (decodeSensorData (fun _ => none)
      (("device_id", JVal.str "test-device") :: readmeTelemetry)).deviceID =
      "test-device" :=
  ⟨rfl, rfl, rfl⟩

/-- C4: a pending command never resolved by a device is transitioned by
the Expiry Sweeper (which attempts
`transition(id, 'error', reason="timeout")` on the commands returned by
`listExpired(now)`) to `error` with reason `timeout` exactly when the
sweep runs strictly after the command's deadline, and is left untouched
by any sweep at or before the deadline. -/
theorem expiry_sweeper_timeout_after_deadline :
    (∀ (st : CmdStore) (now : Nat) (id : String) (e : CmdEntry),
        (st.map Prod.fst).Nodup → lookupKey st id = some e →
        e.cmd.status = CommandPending → now ≤ e.deadline →
        lookupKey (sweep st now) id = some e) ∧
    (∀ (st : CmdStore) (now : Nat) (id : String) (e : CmdEntry),
        (st.map Prod.fst).Nodup → lookupKey st id = some e →
        e.cmd.status = CommandPending → e.deadline < now →
        lookupKey (sweep st now) id =
          some { cmd := { e.cmd with status := CommandError, updatedAt := now },
                 deadline := e.deadline, result := some "timeout" }) :=
  ⟨fun _ _ _ _ hnd hl _ hd => sweep_not_before hnd hl hd,
   fun _ _ _ _ hnd hl hp hd => sweep_expires hnd hl hp hd⟩

def w4Cmd : Command :=
  { commandID := "c4", deviceID := "d2", action := "reboot", params := [],
    status := CommandPending, createdAt := 0, updatedAt := 0 }

def w4Entry : CmdEntry := { cmd := w4Cmd, deadline := 10, result := none }

def w4Store : CmdStore := [("c4", w4Entry)]

theorem expiry_sweeper_timeout_after_deadline_witness :
    lookupKey (sweep w4Store 10) "c4" = some w4Entry ∧
    lookupKey (sweep w4Store 11) "c4" =
      some { cmd := { w4Cmd with status := CommandError, updatedAt := 11 },
             deadline := 10, result := some "timeout" } :=
  ⟨expiry_sweeper_timeout_after_deadline.1 w4Store 10 "c4" w4Entry
     (by decide) rfl rfl (by decide),
   expiry_sweeper_timeout_after_deadline.2 w4Store 11 "c4" w4Entry
     (by decide) rfl rfl (by decide)⟩

/-- C5: the three declared status constants `pending`, `success`,
`error` are pairwise distinct; every store reachable through the system
operations (create, resolve, sweep) keeps each command's status among
exactly these three values; and once a command's status is terminal
(not `pending`), no later system operation changes its stored record. -/
theorem command_status_three_valued_terminal :
    (CommandPending ≠ CommandSuccess ∧ CommandPending ≠ CommandError ∧
       CommandSuccess ≠ CommandError) ∧
    (∀ (st : CmdStore) (ops : List SysOp),
        GoodStore st → GoodStore (sysRun st ops)) ∧
    (∀ (st : CmdStore) (ops : List SysOp) (id : String) (e : CmdEntry),
        lookupKey st id = some e → e.cmd.status ≠ CommandPending →
        lookupKey (sysRun st ops) id = some e) :=
  ⟨by refine ⟨?_, ?_, ?_⟩ <;> decide,
   fun st ops h => goodStore_sysRun ops st h,
   fun st ops id e hl ht => sysRun_terminal_absorb ht ops st hl⟩

def w5Ops : List SysOp :=
  [SysOp.createOp "c5" "d1" "reboot" [] 30 0,
   SysOp.resolveOp "c5" true (some "ok") 3,
   SysOp.sweepOp 40]

def w5Entry : CmdEntry :=
  { cmd := { commandID := "c5x", deviceID := "d9", action := "ping", params := [],
             status := CommandError, createdAt := 0, updatedAt := 2 },
    deadline := 1, result := some "timeout" }

def w5Store : CmdStore := [("c5x", w5Entry)]

theorem command_status_three_valued_terminal_witness :
    (CommandPending ≠ CommandSuccess ∧ CommandPending ≠ CommandError ∧
       CommandSuccess ≠ CommandError) ∧
    GoodStore (sysRun [] w5Ops) ∧
    lookupKey (sysRun w5Store w5Ops) "c5x" = some w5Entry :=
  ⟨command_status_three_valued_terminal.1,
   command_status_three_valued_terminal.2.1 [] w5Ops (fun p hp => nomatch hp),
   command_status_three_valued_terminal.2.2 w5Store w5Ops "c5x" w5Entry rfl
     (by decide)⟩

/-- C6: ingestion reports a `ValidationError` and persists no reading
whenever the device identifier is missing/empty, the timestamp is
absent or unparseable, any declared known measurement's value is
non-finite, or a declared measurement's value lies outside its
configured sanity range (e.g. humidity 250 outside [0,100]). -/
theorem validate_rejects_bad_payloads
    (parseTs : String → Option Nat) (cfg : String → Option (ℚ × ℚ))
    (newID : String) (db : List SensorData) (raw : RawPayload) :
    (raw.deviceID = "" →
      ingestTelemetry parseTs cfg newID db raw =
        (db, some ValidationError.missingDeviceID, [])) ∧
    (raw.deviceID ≠ "" → raw.timestamp = none →
      ingestTelemetry parseTs cfg newID db raw =
        (db, some ValidationError.badTimestamp, [])) ∧
    (∀ ts, raw.deviceID ≠ "" → raw.timestamp = some ts → parseTs ts = none →
      ingestTelemetry parseTs cfg newID db raw =
        (db, some ValidationError.badTimestamp, [])) ∧
    (∀ k m, (k, m) ∈ raw.sensors → k ∈ knownKinds → m.value.isFinite = false →
      (ingestTelemetry parseTs cfg newID db raw).1 = db ∧
      (ingestTelemetry parseTs cfg newID db raw).2.1.isSome = true) ∧
    (∀ m, ("humidity", m) ∈ raw.sensors → cfg "humidity" = some (0, 100) →
      m.value = FVal.finite 250 →
      (ingestTelemetry parseTs cfg newID db raw).1 = db ∧
      (ingestTelemetry parseTs cfg newID db raw).2.1.isSome = true) := by
  refine ⟨?_, ?_, ?_, ?_, ?_⟩
  · intro hdev
    have hv : validate parseTs cfg newID raw = .error .missingDeviceID := by
      unfold validate
      rw [if_pos hdev]
    unfold ingestTelemetry
    rw [hv]
  · intro hdev hts
    have hv : validate parseTs cfg newID raw = .error .badTimestamp := by
      unfold validate
      rw [if_neg hdev, hts]
    unfold ingestTelemetry
    rw [hv]
  · intro ts hdev hts hpt
    have hv : validate parseTs cfg newID raw = .error .badTimestamp := by
      unfold validate
      rw [if_neg hdev, hts]
      dsimp only
      rw [hpt]
    unfold ingestTelemetry
    rw [hv]
  · intro k m hmem hk hfin
    obtain ⟨e, hv⟩ := validate_error_of_bad_meas hmem hk
      (by rw [sanityCheck_nonfinite cfg k hfin]; rfl)
    unfold ingestTelemetry
    rw [hv]
    exact ⟨rfl, rfl⟩
  · intro m hmem hcfg hval
    have hsc : sanityCheck cfg "humidity" m.value =
        some (ValidationError.outOfRange "humidity") := by
      rw [hval]
      unfold sanityCheck
      rw [hcfg]
      rfl
    obtain ⟨e, hv⟩ := validate_error_of_bad_meas hmem (by decide)
      (by rw [hsc]; rfl)
    unfold ingestTelemetry
    rw [hv]
    exact ⟨rfl, rfl⟩

def wParse : String → Option Nat :=
  fun s => if s = "T" then some 100 else none

def w6a : RawPayload := { deviceID := "", timestamp := some "T", sensors := [] }

def w6b : RawPayload := { deviceID := "d1", timestamp := none, sensors := [] }

def w6c : RawPayload :=
  { deviceID := "d1", timestamp := some "garbage", sensors := [] }

def w6d : RawPayload :=
  { deviceID := "d1", timestamp := some "T",
    sensors := [("co2", { value := FVal.nan, unit := "ppm" })] }

def w6e : RawPayload :=
  { deviceID := "d1", timestamp := some "T",
    sensors := [("humidity", { value := FVal.finite 250, unit := "%" })] }

theorem validate_rejects_bad_payloads_witness :
    ingestTelemetry wParse defaultSanity "r1" [] w6a =
      ([], some ValidationError.missingDeviceID, []) ∧
    ingestTelemetry wParse defaultSanity "r1" [] w6b =
      ([], some ValidationError.badTimestamp, []) ∧
    ingestTelemetry wParse defaultSanity "r1" [] w6c =
      ([], some ValidationError.badTimestamp, []) ∧
    ((ingestTelemetry wParse defaultSanity "r1" [] w6d).1 = [] ∧
      (ingestTelemetry wParse defaultSanity "r1" [] w6d).2.1.isSome = true) ∧
    ((ingestTelemetry wParse defaultSanity "r1" [] w6e).1 = [] ∧
      (ingestTelemetry wParse defaultSanity "r1" [] w6e).2.1.isSome = true) :=
  ⟨(validate_rejects_bad_payloads wParse defaultSanity "r1" [] w6a).1 rfl,
   (validate_rejects_bad_payloads wParse defaultSanity "r1" [] w6b).2.1
     (by decide) rfl,
   (validate_rejects_bad_payloads wParse defaultSanity "r1" [] w6c).2.2.1
     "garbage" (by decide) rfl rfl,
   (validate_rejects_bad_payloads wParse defaultSanity "r1" [] w6d).2.2.2.1
     "co2" { value := FVal.nan, unit := "ppm" } (by decide) (by decide) rfl,
   (validate_rejects_bad_payloads wParse defaultSanity "r1" [] w6e).2.2.2.2
     { value := FVal.finite 250, unit := "%" } (by decide) rfl rfl⟩

/-- C7: an unknown measurement kind never causes rejection — dropping
the unknown kinds from a payload yields exactly the same validation
outcome and the same reading, with an empty warning list — and on
success the warnings name the dropped kinds while the reading is built
from the known declared measurements alone, unmodified. -/
theorem unknown_kinds_dropped_not_fatal
    (parseTs : String → Option Nat) (cfg : String → Option (ℚ × ℚ))
    (newID : String) (raw : RawPayload) :
    validate parseTs cfg newID { raw with sensors := knownPart raw.sensors } =
      Except.map (fun p => (p.1, ([] : List String)))
        (validate parseTs cfg newID raw) ∧
    (∀ r ws, validate parseTs cfg newID raw = .ok (r, ws) →
      ws = unknownNames raw.sensors ∧
      r.sensors = buildSensors (knownPart raw.sensors)) :=
  ⟨validate_drop_unknown parseTs cfg newID raw,
   fun _ _ h => ⟨(validate_ok_shape h).2.2.2, (validate_ok_shape h).2.2.1⟩⟩

def w7 : RawPayload :=
  { deviceID := "d1", timestamp := some "T",
    sensors := [("voc", { value := FVal.finite 3, unit := "ppb" }),
                ("pm25", { value := FVal.finite 12, unit := "μg/m³" })] }

def w7r : SensorData :=
  { id := "r1", deviceID := "d1", timestamp := 100,
    sensors := { pm25 := { value := FVal.finite 12, unit := "μg/m³" },
                 co2 := SensorValue.zeroVal, co := SensorValue.zeroVal,
                 temperature := SensorValue.zeroVal,
                 humidity := SensorValue.zeroVal } }

theorem unknown_kinds_dropped_not_fatal_witness :
    validate wParse defaultSanity "r1" { w7 with sensors := knownPart w7.sensors } =
      Except.map (fun p => (p.1, ([] : List String)))
        (validate wParse defaultSanity "r1" w7) ∧
    (["voc"] = unknownNames w7.sensors ∧
      w7r.sensors = buildSensors (knownPart w7.sensors)) :=
  ⟨(unknown_kinds_dropped_not_fatal wParse defaultSanity "r1" w7).1,
   (unknown_kinds_dropped_not_fatal wParse defaultSanity "r1" w7).2 w7r
     ["voc"] rfl⟩

/-- C8: a valid telemetry payload yields exactly one appended
normalized reading, each declared known measurement of which keeps its
numeric (double-precision) value and its unit string verbatim — no
implicit unit conversion. -/
theorem valid_payload_single_reading_units_verbatim
    (parseTs : String → Option Nat) (cfg : String → Option (ℚ × ℚ))
    (newID : String) (db : List SensorData) (raw : RawPayload)
    (r : SensorData) (ws : List String)
    (h : validate parseTs cfg newID raw = .ok (r, ws)) :
    ingestTelemetry parseTs cfg newID db raw = (db ++ [r], none, ws) ∧
    (∀ kind m, kind ∈ knownKinds → lookupKey raw.sensors kind = some m →
      Sensors.get r.sensors kind = { value := m.value, unit := m.unit }) := by
  constructor
  · unfold ingestTelemetry
    rw [h]
  · intro kind m hk hlk
    have hsh := (validate_ok_shape h).2.2.1
    rw [hsh, get_buildSensors _ hk]
    unfold getMeas
    rw [lookupKey_knownPart raw.sensors hk, hlk]

def w8 : RawPayload :=
  { deviceID := "d1", timestamp := some "T",
    sensors := [("pm25", { value := FVal.finite (51/2), unit := "μg/m³" }),
                ("co2", { value := FVal.finite 450, unit := "ppm" })] }

def w8r : SensorData :=
  { id := "r1", deviceID := "d1", timestamp := 100,
    sensors := { pm25 := { value := FVal.finite (51/2), unit := "μg/m³" },
                 co2 := { value := FVal.finite 450, unit := "ppm" },
                 co := SensorValue.zeroVal, temperature := SensorValue.zeroVal,
                 humidity := SensorValue.zeroVal } }

theorem valid_payload_single_reading_units_verbatim_witness :
    ingestTelemetry wParse defaultSanity "r1" [] w8 = ([w8r], none, []) ∧
    Sensors.get w8r.sensors "pm25" =
      { value := FVal.finite (51/2), unit := "μg/m³" } ∧
    Sensors.get w8r.sensors "co2" =
      { value := FVal.finite 450, unit := "ppm" } :=
  have happ := valid_payload_single_reading_units_verbatim wParse defaultSanity
    "r1" [] w8 w8r [] rfl
  ⟨happ.1,
   happ.2 "pm25" { value := FVal.finite (51/2), unit := "μg/m³" }
     (by decide) rfl,
   happ.2 "co2" { value := FVal.finite 450, unit := "ppm" } (by decide) rfl⟩

/-- C9: in the decoded `SensorData`, a measurement kind omitted from
the payload yields the zero `SensorValue` (value 0, unit ""), which is
indistinguishable from a measurement explicitly reported as 0 with an
empty unit — the fixed `Sensors` struct has no way to mark a
measurement as absent. -/
theorem omitted_kind_decodes_to_zero_value (fs : List (String × JVal))
    (h : jsonLookup fs "pm25" = none) :
    (decodeSensors fs).pm25 = SensorValue.zeroVal ∧
    decodeSensors (("pm25", JVal.obj [("value", JVal.num (FVal.finite 0)),
        ("unit", JVal.str "")]) :: fs) = decodeSensors fs := by
  constructor
  · show decodeSensorValue (jObj (jsonLookup fs "pm25")) = SensorValue.zeroVal
    rw [h]
    rfl
  · have hpm : jsonLookup (("pm25", JVal.obj [("value", JVal.num (FVal.finite 0)),
        ("unit", JVal.str "")]) :: fs) "pm25" =
        some (JVal.obj [("value", JVal.num (FVal.finite 0)),
          ("unit", JVal.str "")]) := rfl
    unfold decodeSensors
    rw [hpm, h,
        jsonLookup_cons _ fs "co2" (by decide) (by decide),
        jsonLookup_cons _ fs "co" (by decide) (by decide),
        jsonLookup_cons _ fs "temperature" (by decide) (by decide),
        jsonLookup_cons _ fs "humidity" (by decide) (by decide)]
    rfl

def w9 : List (String × JVal) :=
  [("co2", JVal.obj [("value", JVal.num (FVal.finite 450)),
                     ("unit", JVal.str "ppm")])]

theorem omitted_kind_decodes_to_zero_value_witness :
    (decodeSensors w9).pm25 = SensorValue.zeroVal ∧
    decodeSensors (("pm25", JVal.obj [("value", JVal.num (FVal.finite 0)),
        ("unit", JVal.str "")]) :: w9) = decodeSensors w9 :=
  omitted_kind_decodes_to_zero_value w9 rfl

/-- C10: `CommandStatus` is a plain string type, so strings outside the
three declared constants are well-typed `CommandStatus` values —
confinement to `pending`/`success`/`error` is not given by the type and
must be enforced by guards at every write. -/
theorem command_status_not_confined_by_type :
    ∃ s : CommandStatus,
      s ≠ CommandPending ∧ s ≠ CommandSuccess ∧ s ≠ CommandError :=
  ⟨"rebooting", by refine ⟨?_, ?_, ?_⟩ <;> decide⟩

end AirSense
